import Mathlib

/-!
Verification development for the docker-stats visualizer.

The Python source (`stats_visualizer.py`) is shallowly embedded here:
strings are `List Char`, Python floats are modelled exactly as rationals
(`ℚ`; every numeric literal and multiplier in the program is a small
decimal, so no rounding behaviour is at stake in the claims), and any
Python expression that can raise an exception is modelled as an `Option`
(`none` = the exception propagates to the enclosing handler).
-/

set_option maxRecDepth 1000000

namespace DockerStats

/-! ### Character classes (ASCII fragment of the Python predicates) -/

/-- ASCII decimal digit, as matched by the regex class `\d` and accepted
by `float()` (the ASCII fragment; non-ASCII Unicode digits are out of
scope for this telemetry format). -/
def isDigitC (c : Char) : Bool := 48 ≤ c.toNat && c.toNat ≤ 57

/-- ASCII letter, as matched by the regex class `[A-Za-z]`. -/
def isLetterC (c : Char) : Bool :=
  (65 ≤ c.toNat && c.toNat ≤ 90) || (97 ≤ c.toNat && c.toNat ≤ 122)

/-- Character of the regex class `[\d.]` used for the size numeral
(46 is the code point of the dot). -/
def isNumC (c : Char) : Bool := isDigitC c || c.toNat == 46

/-- Character of the regex class `[0-9;]` used for control-sequence
parameter bytes in `clean_line` (59 is the semicolon). -/
def isParamC (c : Char) : Bool := isDigitC c || c.toNat == 59

/-- Whitespace as stripped by Python `str.strip()` (ASCII fragment:
space, TAB..CR, FS..US). -/
def isWsC (c : Char) : Bool :=
  c.toNat == 32 || (9 ≤ c.toNat && c.toNat ≤ 13) || (28 ≤ c.toNat && c.toNat ≤ 31)

/-- Python `str.strip()`: drop leading and trailing whitespace. -/
def pyStrip (l : List Char) : List Char :=
  ((l.dropWhile isWsC).reverse.dropWhile isWsC).reverse

/-- Numeric value of a digit string (most significant digit first). -/
def natOfDigits (l : List Char) : ℕ :=
  l.foldl (fun a c => a * 10 + (c.toNat - 48)) 0

/-! ### Python `float()` on strings, as an exact rational

`none` models `float()` raising `ValueError`.  The modelled grammar is
optional surrounding whitespace, an optional sign, a decimal mantissa
(`digits`, `digits.digits`, `digits.` or `.digits`) and an optional
exponent.  (`inf`/`nan` literals and digit-group underscores are not
modelled; no claim depends on them.) -/

/-- Optional leading sign of a float literal, as a rational factor. -/
def pySign (l : List Char) : ℚ × List Char :=
  if l.head? = some '-' then (-1, l.tail)
  else if l.head? = some '+' then (1, l.tail)
  else (1, l)

/-- Optional leading sign of an exponent, as an integer factor. -/
def pySignZ (l : List Char) : ℤ × List Char :=
  if l.head? = some '-' then (-1, l.tail)
  else if l.head? = some '+' then (1, l.tail)
  else (1, l)

/-- Exponent suffix of a float literal: empty means exponent 0, otherwise
`e`/`E`, an optional sign and at least one digit consuming the whole
rest; anything else is a `ValueError`. -/
def pyFloatExpPart (l : List Char) : Option ℤ :=
  if l = [] then some 0
  else if l.head? = some 'e' ∨ l.head? = some 'E' then
    if (pySignZ l.tail).2.takeWhile isDigitC ≠ [] ∧
        (pySignZ l.tail).2.dropWhile isDigitC = [] then
      some ((pySignZ l.tail).1 *
        (natOfDigits ((pySignZ l.tail).2.takeWhile isDigitC) : ℤ))
    else none
  else none

/-- Unsigned part of a float literal: integer digits, optionally a dot
and fraction digits (at least one digit in total), and the optional
exponent. -/
def pyMantissa (l : List Char) : Option ℚ :=
  if (l.dropWhile isDigitC).head? = some '.' then
    if l.takeWhile isDigitC = [] ∧
        (l.dropWhile isDigitC).tail.takeWhile isDigitC = [] then none
    else
      (pyFloatExpPart ((l.dropWhile isDigitC).tail.dropWhile isDigitC)).map fun e =>
        ((natOfDigits (l.takeWhile isDigitC) : ℚ) +
          (natOfDigits ((l.dropWhile isDigitC).tail.takeWhile isDigitC) : ℚ) /
            (10 : ℚ) ^ ((l.dropWhile isDigitC).tail.takeWhile isDigitC).length) *
          (10 : ℚ) ^ e
  else if l.takeWhile isDigitC = [] then none
  else
    (pyFloatExpPart (l.dropWhile isDigitC)).map fun e =>
      (natOfDigits (l.takeWhile isDigitC) : ℚ) * (10 : ℚ) ^ e

/-- Python `float(s)` on a string, as an exact rational (`none` =
`ValueError`): strip whitespace, read the optional sign, then the
unsigned mantissa and exponent. -/
def pyFloat (l0 : List Char) : Option ℚ :=
  (pyMantissa (pySign (pyStrip l0)).2).map fun m => (pySign (pyStrip l0)).1 * m

/-! ### `parse_size` -/

/-- The `multipliers` dict of `parse_size`, as an association list in
source order. -/
def multipliers : List (List Char × ℚ) :=
  [("b".toList, 1 / (1024 * 1024)),
   ("kb".toList, 1 / 1024),
   ("mb".toList, 1),
   ("gb".toList, 1024),
   ("tb".toList, 1024 * 1024),
   ("kib".toList, 1 / 1024),
   ("mib".toList, 1),
   ("gib".toList, 1024),
   ("tib".toList, 1024 * 1024)]

/-- Python `str.lower()` (ASCII). -/
def lowerL (l : List Char) : List Char := l.map Char.toLower

/-- Group 1 of the regex `([\d.]+)([A-Za-z]+)` under `re.match` on the
stripped input: the maximal `[\d.]` run at the start. -/
def matchedNumeral (s : List Char) : List Char :=
  (pyStrip s).takeWhile isNumC

/-- Group 2 of the regex `([\d.]+)([A-Za-z]+)`: the maximal letter run
immediately following the numeral run. -/
def matchedUnit (s : List Char) : List Char :=
  ((pyStrip s).dropWhile isNumC).takeWhile isLetterC

/-- `parse_size` from `stats_visualizer.py`.  The regex
`([\d.]+)([A-Za-z]+)` is embedded by its exact deterministic behaviour:
the character classes of the two groups are disjoint, so backtracking
never changes the result and `re.match` succeeds exactly when the
stripped string starts with a nonempty run of `[\d.]` characters
followed immediately by a letter; the groups are the maximal such runs
(`matchedNumeral`, `matchedUnit`).  `none` models `float()` raising
`ValueError` on the matched numeral. -/
def parse_size (size_str : List Char) : Option ℚ :=
  if size_str = [] ∨ size_str = "0B".toList then some 0
  else if matchedNumeral size_str = [] ∨ matchedUnit size_str = [] then some 0
  else
    (pyFloat (matchedNumeral size_str)).map fun v =>
      v * ((multipliers.lookup (lowerL (matchedUnit size_str))).getD 0)

/-! ### `clean_line`

The first substitution `re.sub(r'\[([0-9;]*[A-Za-z]|\[K)', '', line)`
removes every leftmost, non-overlapping occurrence of `[` followed by a
run of `[0-9;]` and one letter (first alternative), or the literal
`[[K` (second alternative, tried only when the first fails).  Both
alternatives are deterministic because the involved character classes
are disjoint, so greedy matching never backtracks into a different
result.  The second substitution removes every occurrence of `[H`,
`[J` or `[K`. -/

/-- Length of the control-sequence match starting at this position, if
any (`re` pattern `\[([0-9;]*[A-Za-z]|\[K)`). -/
def ctrlAt (l : List Char) : Option ℕ :=
  if l.head? = some '[' then
    let rest := l.tail
    match (rest.dropWhile isParamC).head? with
    | some c =>
      if isLetterC c then some ((rest.takeWhile isParamC).length + 2)
      else if rest.head? = some '[' ∧ rest.tail.head? = some 'K' then some 3
      else none
    | none =>
      if rest.head? = some '[' ∧ rest.tail.head? = some 'K' then some 3
      else none
  else none

/-- Does any position of the line start a control-sequence match? -/
def hasCtrl : List Char → Bool
  | [] => false
  | c :: rest => (ctrlAt (c :: rest)).isSome || hasCtrl rest

/-- One left-to-right pass of the first `re.sub` of `clean_line`,
removing each leftmost match and continuing after it.  The fuel argument
only bounds the recursion; `sub1` below always supplies enough. -/
def sub1Fuel : ℕ → List Char → List Char
  | 0, l => l
  | _ + 1, [] => []
  | n + 1, c :: rest =>
    match ctrlAt (c :: rest) with
    | some k => sub1Fuel n (rest.drop (k - 1))
    | none => c :: sub1Fuel n rest

/-- The first substitution of `clean_line`. -/
def sub1 (l : List Char) : List Char := sub1Fuel l.length l

/-- One left-to-right pass of the second `re.sub` of `clean_line`
(pattern `(\[H|\[J|\[K)`).  The fuel argument only bounds the
recursion; `sub2` below always supplies enough. -/
def sub2Fuel : ℕ → List Char → List Char
  | 0, l => l
  | _ + 1, [] => []
  | n + 1, c :: rest =>
    if c = '[' ∧ (rest.head? = some 'H' ∨ rest.head? = some 'J' ∨
        rest.head? = some 'K') then sub2Fuel n rest.tail
    else c :: sub2Fuel n rest

/-- The second substitution of `clean_line`: remove every occurrence of
`[H`, `[J`, `[K`. -/
def sub2 (l : List Char) : List Char := sub2Fuel l.length l

/-- `clean_line` from `stats_visualizer.py`: the two substitutions
followed by `str.strip()`. -/
def clean_line (line : List Char) : List Char := pyStrip (sub2 (sub1 line))

/-! ### Splitting, `str.replace`, list indexing -/

/-- Python `str.split(sep)` for a one-character separator (keeps empty
fields; the empty string yields `[""]`). -/
def splitOnChar (sep : Char) : List Char → List (List Char)
  | [] => [[]]
  | c :: rest =>
    if c == sep then [] :: splitOnChar sep rest
    else
      match splitOnChar sep rest with
      | [] => [[c]]
      | p :: ps => (c :: p) :: ps

/-- Python `str.replace(pat, '')` with nonempty `pat`: remove each
leftmost, non-overlapping occurrence, scanning left to right.  The fuel
argument only bounds the recursion; `removeAll` below always supplies
enough. -/
def removeAllFuel (pat : List Char) : ℕ → List Char → List Char
  | 0, l => l
  | _ + 1, [] => []
  | n + 1, c :: rest =>
    if pat ≠ [] ∧ List.isPrefixOf pat (c :: rest) = true then
      removeAllFuel pat n ((c :: rest).drop pat.length)
    else c :: removeAllFuel pat n rest

/-- Python `str.replace(pat, '')`. -/
def removeAll (pat l : List Char) : List Char := removeAllFuel pat l.length l

/-! ### Timestamps -/

/-- A parsed timestamp value. -/
structure Timestamp where
  year : ℕ
  month : ℕ
  day : ℕ
  hour : ℕ
  minute : ℕ
  second : ℕ
  frac : ℚ
deriving DecidableEq

/-- Read exactly `n` digits from the front of the list. -/
def readDigits (n : ℕ) (l : List Char) : Option (ℕ × List Char) :=
  if (l.take n).length = n ∧ (l.take n).all isDigitC then
    some (natOfDigits (l.take n), l.drop n)
  else none

/-- Consume one expected character. -/
def expectChar (c : Char) (l : List Char) : Option (List Char) :=
  if l.head? = some c then some l.tail else none

/-- Fractional-seconds suffix of an ISO timestamp: empty, or a dot and
at least one digit. -/
def parseFrac (l : List Char) : Option ℚ :=
  if l = [] then some 0
  else if l.head? = some '.' ∧ l.tail ≠ [] ∧ l.tail.all isDigitC then
    some ((natOfDigits l.tail : ℚ) / (10 : ℚ) ^ l.tail.length)
  else none

/-- `HH:MM:SS` with optional fractional seconds, consuming the whole
rest of the string. -/
def parseHMS (l : List Char) : Option (ℕ × ℕ × ℕ × ℚ) :=
  (readDigits 2 l).bind fun hh =>
  (expectChar ':' hh.2).bind fun s3 =>
  (readDigits 2 s3).bind fun mi =>
  (expectChar ':' mi.2).bind fun s4 =>
  (readDigits 2 s4).bind fun ss =>
  if ¬(hh.1 < 24 ∧ mi.1 < 60 ∧ ss.1 < 60) then none
  else (parseFrac ss.2).bind fun fr => some (hh.1, mi.1, ss.1, fr)

/-- `YYYY-MM-DD` prefix; returns the date and the unconsumed rest. -/
def parseYMD (l : List Char) : Option (ℕ × ℕ × ℕ × List Char) :=
  (readDigits 4 l).bind fun yr =>
  (expectChar '-' yr.2).bind fun s1 =>
  (readDigits 2 s1).bind fun mo =>
  (expectChar '-' mo.2).bind fun s2 =>
  (readDigits 2 s2).bind fun dy =>
  if ¬(1 ≤ mo.1 ∧ mo.1 ≤ 12 ∧ 1 ≤ dy.1 ∧ dy.1 ≤ 31) then none
  else some (yr.1, mo.1, dy.1, dy.2)

/-- Models the external `pandas.to_datetime` on the ISO-8601 strings the
collector writes (`datetime.isoformat()`: `YYYY-MM-DD`, optionally
followed by `T` or a space and `HH:MM:SS` with an optional fractional
part).  Other formats pandas happens to accept are outside the
telemetry format and not modelled; `none` models the `ValueError` that
`pd.to_datetime` raises on unparseable input. -/
def parseTimestamp (s0 : List Char) : Option Timestamp :=
  (parseYMD (pyStrip s0)).bind fun ymd =>
  if ymd.2.2.2 = [] then some ⟨ymd.1, ymd.2.1, ymd.2.2.1, 0, 0, 0, 0⟩
  else if ymd.2.2.2.head? = some 'T' ∨ ymd.2.2.2.head? = some ' ' then
    (parseHMS ymd.2.2.2.tail).bind fun hms =>
    some ⟨ymd.1, ymd.2.1, ymd.2.2.1, hms.1, hms.2.1, hms.2.2.1, hms.2.2.2⟩
  else none

/-! ### `parse_docker_stats` -/

/-- The canonical parsed record (the `entry` dict appended to `data`;
field names follow the source keys). -/
structure MetricSample where
  timestamp : Timestamp
  name : List Char
  cpu : ℚ
  mem_used : ℚ
  mem_total : ℚ
  net_in : ℚ
  net_out : ℚ
  block_in : ℚ
  block_out : ℚ
deriving DecidableEq

/-- Shared shape of the `mem=` / `net=` / `block=` fields: strip the
tag (`str.replace(tag, '')`), split on `/`, feed `[0]` and `[1]`
through `parse_size` after `strip()`.  A missing second component is
the `IndexError` caught by the enclosing `try`. -/
def parsePair (tag field : List Char) : Option (ℚ × ℚ) :=
  ((splitOnChar '/' (removeAll tag field)).get? 0).bind fun a =>
  ((splitOnChar '/' (removeAll tag field)).get? 1).bind fun b =>
  (parse_size (pyStrip a)).bind fun x =>
  (parse_size (pyStrip b)).bind fun y => some (x, y)

/-- The `cpu=` field: strip the tag and every `%`, then `float()`. -/
def parseCpu (field : List Char) : Option ℚ :=
  pyFloat (removeAll "%".toList (removeAll "cpu=".toList field))

/-- The optional block-I/O column: parsed when a sixth column exists,
otherwise both components default to 0. -/
def parseBlock (parts : List (List Char)) : Option (ℚ × ℚ) :=
  if parts.length > 5 then
    (parts.get? 5).bind fun p5 => parsePair "block=".toList p5
  else some (0, 0)

/-- The body of the per-line `try` block of `parse_docker_stats`,
applied to the tab-split fields of a cleaned line, together with the
preceding `len(parts) < 5` guard.  `none` models both the `continue` on
short lines and a caught `ValueError`/`IndexError` inside the `try`
(list indexing out of range is `List.get?` returning `none`). -/
def parseParts (parts : List (List Char)) : Option MetricSample :=
  if parts.length < 5 then none
  else
    (parts.get? 0).bind fun p0 =>
    (parts.get? 1).bind fun p1 =>
    (parts.get? 2).bind fun p2 =>
    (parts.get? 3).bind fun p3 =>
    (parts.get? 4).bind fun p4 =>
    (parseTimestamp p0).bind fun ts =>
    (parseCpu p2).bind fun cpu =>
    (parsePair "mem=".toList p3).bind fun mem =>
    (parsePair "net=".toList p4).bind fun net =>
    (parseBlock parts).bind fun blk =>
    some (MetricSample.mk ts (removeAll "name=".toList p1) cpu
      mem.1 mem.2 net.1 net.2 blk.1 blk.2)

/-- One iteration of the `for line in f` loop: `none` when the line is
skipped (blank, too few columns, or a caught exception), `some` when an
entry is appended. -/
def processLine (line : List Char) : Option MetricSample :=
  if pyStrip line = [] then none
  else parseParts (splitOnChar '\t' (clean_line line))

/-- `parse_docker_stats` from `stats_visualizer.py`, over the sequence
of raw lines of the file: the accumulation loop appending each parsed
entry to `data`. -/
def parse_docker_stats (lines : List (List Char)) : List MetricSample :=
  lines.foldl
    (fun data line =>
      match processLine line with
      | some e => data ++ [e]
      | none => data)
    []

/-! ### `create_visualization`

Only the data-facing behaviour is modelled: the figure is the list of
its traces (data series), each with its points, label, colour, dash
style and subplot row.  Layout attributes (titles, sizes, margins)
carry no claim content. -/

/-- One plotted data series (`go.Scatter` call). -/
structure Trace where
  xs : List Timestamp
  ys : List ℚ
  label : List Char
  color : List Char
  dashed : Bool
  row : ℕ
deriving DecidableEq

/-- The colour palette of `create_visualization`, in source order. -/
def colors : List (List Char) :=
  ["#1f77b4", "#ff7f0e", "#2ca02c", "#d62728", "#9467bd",
   "#8c564b", "#e377c2", "#7f7f7f", "#bcbd22", "#17becf"].map String.toList

/-- Column access `df[col]` on the DataFrame built by
`pd.DataFrame(data)`: a DataFrame built from an empty record list has
no columns at all, so pandas raises `KeyError` on any column access;
on a nonempty record list each dict key is a column. -/
def dfColumn {α : Type} (df : List MetricSample) (colName : List Char)
    (f : MetricSample → α) : Except (List Char) (List α) :=
  if df.isEmpty then Except.error ("KeyError: ".toList ++ colName)
  else Except.ok (df.map f)

/-- `Series.unique()`: distinct values in first-occurrence order. -/
def uniqueKeep (l : List (List Char)) : List (List Char) :=
  l.foldl (fun acc x => if x ∈ acc then acc else acc ++ [x]) []

/-- The six traces contributed by the container at discovery index `i`:
CPU, memory, network in/out (solid/dashed) and block I/O in/out
(solid/dashed), all in the colour `colors[i % len(colors)]`. -/
def tracesFor (df : List MetricSample) (i : ℕ) (container : List Char) :
    List Trace :=
  let cd := df.filter (fun e => e.name == container)
  let color := colors.getD (i % colors.length) []
  let ts := cd.map (fun e => e.timestamp)
  [⟨ts, cd.map (fun e => e.cpu), container ++ " - CPU".toList, color, false, 1⟩,
   ⟨ts, cd.map (fun e => e.mem_used), container ++ " - Memory".toList, color, false, 2⟩,
   ⟨ts, cd.map (fun e => e.net_in), container ++ " - Net In".toList, color, false, 3⟩,
   ⟨ts, cd.map (fun e => e.net_out), container ++ " - Net Out".toList, color, true, 3⟩,
   ⟨ts, cd.map (fun e => e.block_in), container ++ " - Block In".toList, color, false, 4⟩,
   ⟨ts, cd.map (fun e => e.block_out), container ++ " - Block Out".toList, color, true, 4⟩]

/-- `create_visualization` from `stats_visualizer.py`: reads the `name`
column (`df['name'].unique()`), then adds the traces of each container
in discovery order.  `Except.error` models an uncaught exception
escaping the function. -/
def create_visualization (df : List MetricSample) :
    Except (List Char) (List Trace) :=
  (dfColumn df "name".toList (fun e => e.name)).bind fun names =>
  Except.ok
    ((uniqueKeep names).enum.foldr
      (fun ic acc => tracesFor df ic.1 ic.2 ++ acc) [])

/-! ### Definitions written from the specification text (for the
refinement claims) -/

/-- The canonical multiplier table exactly as the specification states
it (spec section 4.2): value times multiplier = megabytes. -/
def specMultiplier (u : List Char) : ℚ :=
  if u = "b".toList then 1 / 1048576
  else if u = "kb".toList ∨ u = "kib".toList then 1 / 1024
  else if u = "mb".toList ∨ u = "mib".toList then 1
  else if u = "gb".toList ∨ u = "gib".toList then 1024
  else if u = "tb".toList ∨ u = "tib".toList then 1048576
  else 0

/-- The recognized unit suffixes, lowercased, as listed in the
specification. -/
def specSuffixes : List (List Char) :=
  ["b".toList, "kb".toList, "mb".toList, "gb".toList, "tb".toList,
   "kib".toList, "mib".toList, "gib".toList, "tib".toList]

/-- Input line used with claim C3: its cpu field carries a negative
value, which `float()` accepts. -/
def negCpuLine : List Char :=
  "2024-01-01T00:00:00\tname=web\tcpu=-5%\tmem=1MiB/2MiB\tnet=0B/0B\tblock=0B/0B".toList

/-- The sample produced by `negCpuLine`. -/
def negCpuSample : MetricSample :=
  ⟨⟨2024, 1, 1, 0, 0, 0, 0⟩, "web".toList, -5, 1, 2, 0, 0, 0, 0⟩

/-- Five-column input line used with claim C8 (no block-I/O field). -/
def fiveColLine : List Char :=
  "2024-01-01T00:00:00\tname=api\tcpu=7%\tmem=64MiB/128MiB\tnet=1KiB/1KiB".toList

/-- The sample produced by `fiveColLine`. -/
def fiveColSample : MetricSample :=
  ⟨⟨2024, 1, 1, 0, 0, 0, 0⟩, "api".toList, 7, 64, 128, 1/1024, 1/1024, 0, 0⟩

/-- Six-column row used with claim C10. -/
def sixCols : List (List Char) :=
  ["2024-01-01T00:00:00".toList, "name=web".toList, "cpu=1%".toList,
   "mem=1MiB/2MiB".toList, "net=0B/0B".toList, "block=0B/0B".toList]

/-! ### Helper lemmas -/

lemma isLetterC_isNumC_false {c : Char} (h : isLetterC c = true) :
    isNumC c = false := by
  simp only [isLetterC, Bool.or_eq_true, Bool.and_eq_true, decide_eq_true_eq] at h
  simp only [isNumC, isDigitC, Bool.or_eq_false_iff, Bool.and_eq_false_iff,
    decide_eq_false_iff_not, beq_eq_false_iff_ne, ne_eq]
  omega

lemma isNumC_isWsC_false {c : Char} (h : isNumC c = true) :
    isWsC c = false := by
  simp only [isNumC, isDigitC, Bool.or_eq_true, Bool.and_eq_true,
    decide_eq_true_eq, beq_iff_eq] at h
  simp only [isWsC, Bool.or_eq_false_iff, Bool.and_eq_false_iff,
    decide_eq_false_iff_not, beq_eq_false_iff_ne, ne_eq]
  omega

lemma isLetterC_isWsC_false {c : Char} (h : isLetterC c = true) :
    isWsC c = false := by
  simp only [isLetterC, Bool.or_eq_true, Bool.and_eq_true, decide_eq_true_eq] at h
  simp only [isWsC, Bool.or_eq_false_iff, Bool.and_eq_false_iff,
    decide_eq_false_iff_not, beq_eq_false_iff_ne, ne_eq]
  omega

lemma dropWhile_eq_self_of_forall {p : Char → Bool} :
    ∀ {l : List Char}, (∀ c ∈ l, p c = false) → l.dropWhile p = l
  | [], _ => rfl
  | c :: l, h => by
    have hc : p c = false := h c (List.mem_cons_self c l)
    simp [List.dropWhile_cons, hc]

lemma pyStrip_eq_self {l : List Char} (h : ∀ c ∈ l, isWsC c = false) :
    pyStrip l = l := by
  unfold pyStrip
  rw [dropWhile_eq_self_of_forall h]
  rw [dropWhile_eq_self_of_forall (fun c hc => h c (List.mem_reverse.mp hc))]
  exact l.reverse_reverse

lemma takeWhile_eq_self_of_forall {p : Char → Bool} :
    ∀ {l : List Char}, (∀ c ∈ l, p c = true) → l.takeWhile p = l
  | [], _ => rfl
  | c :: l, h => by
    have hc : p c = true := h c (List.mem_cons_self c l)
    simp only [List.takeWhile_cons, hc, if_true]
    rw [takeWhile_eq_self_of_forall (fun d hd => h d (List.mem_cons_of_mem c hd))]

lemma takeWhile_append_of_forall {p : Char → Bool} {b : List Char} :
    ∀ {a : List Char}, (∀ c ∈ a, p c = true) →
      (a ++ b).takeWhile p = a ++ b.takeWhile p
  | [], _ => rfl
  | c :: a, h => by
    have hc : p c = true := h c (List.mem_cons_self c a)
    simp only [List.cons_append, List.takeWhile_cons, hc, if_true]
    rw [takeWhile_append_of_forall (fun d hd => h d (List.mem_cons_of_mem c hd))]

lemma dropWhile_append_of_forall {p : Char → Bool} {b : List Char}
    (hb : b.head? = none ∨ ∃ c, b.head? = some c ∧ p c = false) :
    ∀ {a : List Char}, (∀ c ∈ a, p c = true) →
      (a ++ b).dropWhile p = b.dropWhile p
  | [], _ => rfl
  | c :: a, h => by
    have hc : p c = true := h c (List.mem_cons_self c a)
    simp only [List.cons_append, List.dropWhile_cons, hc, if_true]
    exact dropWhile_append_of_forall hb (fun d hd => h d (List.mem_cons_of_mem c hd))

lemma takeWhile_eq_nil_of_head {p : Char → Bool} {l : List Char} {c : Char}
    (hh : l.head? = some c) (hc : p c = false) : l.takeWhile p = [] := by
  cases l with
  | nil => simp at hh
  | cons x xs =>
    simp only [List.head?_cons, Option.some.injEq] at hh
    subst hh
    simp [List.takeWhile_cons, hc]

lemma foldl_append_filterMap (lines : List (List Char)) :
    ∀ acc : List MetricSample,
      lines.foldl
        (fun data line =>
          match processLine line with
          | some e => data ++ [e]
          | none => data) acc
        = acc ++ lines.filterMap processLine := by
  induction lines with
  | nil => intro acc; simp
  | cons l ls ih =>
    intro acc
    simp only [List.foldl_cons, List.filterMap_cons]
    cases h : processLine l with
    | none => exact ih acc
    | some e => simpa using ih (acc ++ [e])

lemma pds_filterMap (lines : List (List Char)) :
    parse_docker_stats lines = lines.filterMap processLine := by
  unfold parse_docker_stats
  simpa using foldl_append_filterMap lines []

lemma mem_takeWhile_pred {p : Char → Bool} :
    ∀ {l : List Char} {c : Char}, c ∈ l.takeWhile p → p c = true
  | x :: xs, c, h => by
    by_cases hx : p x
    · rw [List.takeWhile_cons_of_pos hx] at h
      rcases List.mem_cons.mp h with rfl | h2
      · exact hx
      · exact mem_takeWhile_pred h2
    · rw [List.takeWhile_cons_of_neg hx] at h
      exact absurd h (List.not_mem_nil c)

lemma pySign_eq_id {l : List Char} (h1 : l.head? ≠ some '-')
    (h2 : l.head? ≠ some '+') : pySign l = (1, l) := by
  unfold pySign
  rw [if_neg h1, if_neg h2]

lemma pySign_eq_id_of_numC {l : List Char} (hl : ∀ c ∈ l, isNumC c = true) :
    pySign l = (1, l) := by
  apply pySign_eq_id <;>
  · intro hh
    cases l with
    | nil => simp at hh
    | cons x xs =>
      simp only [List.head?_cons, Option.some.injEq] at hh
      subst hh
      exact absurd (hl _ (List.mem_cons_self _ _)) (by decide)

lemma pyMantissa_nonneg {l : List Char} {m : ℚ}
    (h : pyMantissa l = some m) : 0 ≤ m := by
  unfold pyMantissa at h
  split at h
  · split at h
    · exact absurd h (by simp)
    · rcases Option.map_eq_some'.mp h with ⟨e, _, rfl⟩
      positivity
  · split at h
    · exact absurd h (by simp)
    · rcases Option.map_eq_some'.mp h with ⟨e, _, rfl⟩
      positivity

lemma pyFloat_nonneg {l : List Char} (hl : ∀ c ∈ l, isNumC c = true)
    {v : ℚ} (h : pyFloat l = some v) : 0 ≤ v := by
  unfold pyFloat at h
  rw [pyStrip_eq_self (fun c hc => isNumC_isWsC_false (hl c hc)),
    pySign_eq_id_of_numC hl] at h
  rcases Option.map_eq_some'.mp h with ⟨m, hm, rfl⟩
  simpa using pyMantissa_nonneg hm

lemma lookup_multipliers_nonneg (u : List Char) :
    0 ≤ (multipliers.lookup u).getD 0 := by
  unfold multipliers
  simp only [List.lookup]
  repeat' split
  all_goals norm_num

lemma parse_size_nonneg {s : List Char} {q : ℚ}
    (h : parse_size s = some q) : 0 ≤ q := by
  unfold parse_size at h
  split at h
  · simp only [Option.some.injEq] at h
    exact h.le
  · split at h
    · simp only [Option.some.injEq] at h
      exact h.le
    · rcases Option.map_eq_some'.mp h with ⟨v, hv, rfl⟩
      have hnum : ∀ c ∈ matchedNumeral s, isNumC c = true :=
        fun c hc => mem_takeWhile_pred hc
      exact mul_nonneg (pyFloat_nonneg hnum hv) (lookup_multipliers_nonneg _)

lemma hasCtrl_cons_false {c : Char} {rest : List Char}
    (h : hasCtrl (c :: rest) = false) :
    ctrlAt (c :: rest) = none ∧ hasCtrl rest = false := by
  simp only [hasCtrl, Bool.or_eq_false_iff] at h
  exact ⟨Option.not_isSome_iff_eq_none.mp (by simp [h.1]), h.2⟩

lemma sub1Fuel_id : ∀ (n : ℕ) (l : List Char),
    hasCtrl l = false → sub1Fuel n l = l := by
  intro n
  induction n with
  | zero => intro l _; rfl
  | succ n ih =>
    intro l hc
    cases l with
    | nil => rfl
    | cons c rest =>
      obtain ⟨h1, h2⟩ := hasCtrl_cons_false hc
      simp only [sub1Fuel, h1]
      rw [ih rest h2]

lemma sub2Fuel_id : ∀ (n : ℕ) (l : List Char),
    hasCtrl l = false → sub2Fuel n l = l := by
  intro n
  induction n with
  | zero => intro l _; rfl
  | succ n ih =>
    intro l hc
    cases l with
    | nil => rfl
    | cons c rest =>
      obtain ⟨h1, h2⟩ := hasCtrl_cons_false hc
      have hcond : ¬(c = '[' ∧ (rest.head? = some 'H' ∨ rest.head? = some 'J' ∨
          rest.head? = some 'K')) := by
        rintro ⟨rfl, hh⟩
        cases rest with
        | nil => simp at hh
        | cons b t =>
          simp only [List.head?_cons, Option.some.injEq] at hh
          have hb : isParamC b = false ∧ isLetterC b = true := by
            rcases hh with rfl | rfl | rfl <;> exact ⟨by decide, by decide⟩
          rw [ctrlAt] at h1
          simp only [List.head?_cons, Option.some.injEq, if_pos rfl] at h1
          rw [List.tail_cons, List.dropWhile_cons_of_neg (by simp [hb.1])] at h1
          simp only [List.head?_cons, hb.2, if_pos] at h1
          exact Option.some_ne_none _ h1
      rw [sub2Fuel, if_neg hcond, ih rest h2]

lemma clean_line_eq_strip {l : List Char} (h : hasCtrl l = false) :
    clean_line l = pyStrip l := by
  unfold clean_line sub1 sub2
  rw [sub1Fuel_id l.length l h, sub2Fuel_id l.length l h]

example : parse_size "128MiB".toList = some 128 := by with_unfolding_all decide
example : parse_size "1KiB".toList = some (1 / 1024) := by with_unfolding_all decide
example : parse_size "1.5GB".toList = some 1536 := by with_unfolding_all decide
example : parse_size "0B".toList = some 0 := by with_unfolding_all decide
example : parse_size "5QZ".toList = some 0 := by with_unfolding_all decide
example : parse_size ".B".toList = none := by with_unfolding_all decide
example : parse_size "1.2.3MB".toList = none := by with_unfolding_all decide
example : pyFloat "-5".toList = some (-5) := by with_unfolding_all decide
example : pyFloat " 2e3 ".toList = some 2000 := by with_unfolding_all decide

example :
    processLine
      "2024-01-01T00:00:00\tname=web\tcpu=12.5%\tmem=128MiB/512MiB\tnet=1KiB/2KiB\tblock=0B/0B".toList
      = some ⟨⟨2024, 1, 1, 0, 0, 0, 0⟩, "web".toList, 25/2, 128, 512,
          1/1024, 2/1024, 0, 0⟩ := by
  with_unfolding_all decide

example : clean_line " [2Jname=web ".toList = "name=web".toList := by
  with_unfolding_all decide

example : clean_line "[Habc[K".toList = "abc".toList := by
  with_unfolding_all decide

example :
    processLine "2024-01-01T00:00:00\tname=web\tcpu=-5%\tmem=1MiB/2MiB\tnet=0B/0B\tblock=0B/0B".toList
      = some ⟨⟨2024, 1, 1, 0, 0, 0, 0⟩, "web".toList, -5, 1, 2, 0, 0, 0, 0⟩ := by
  with_unfolding_all decide

example : processLine "a\tb\tc\td".toList = none := by with_unfolding_all decide

example : create_visualization [] = Except.error ("KeyError: name".toList) := rfl

/-! ### Claim theorems -/

/-- C9: the input line
`2024-01-01T00:00:00<TAB>name=web<TAB>cpu=12.5%<TAB>mem=128MiB/512MiB<TAB>net=1KiB/2KiB<TAB>block=0B/0B`
parses to a sample with entity id `web`, cpu 12.5, memory 128/512 MB,
network 1/1024 and 2/1024 MB, and block I/O 0/0. -/
theorem c9_example_line_parses :
    parse_docker_stats
      ["2024-01-01T00:00:00\tname=web\tcpu=12.5%\tmem=128MiB/512MiB\tnet=1KiB/2KiB\tblock=0B/0B".toList]
      = [⟨⟨2024, 1, 1, 0, 0, 0, 0⟩, "web".toList, 12.5, 128, 512,
          1/1024, 2/1024, 0, 0⟩] := by
  with_unfolding_all decide

/-- C5: on an empty sample collection the renderer does not produce an
empty-but-valid artifact, contrary to the claim: `df['name']` on the
DataFrame built from an empty record list raises `KeyError` (the frame
has no columns), so `create_visualization` fails. -/
theorem c5_empty_collection_raises_keyerror :
    create_visualization [] = Except.error ("KeyError: name".toList) := rfl

/-- C2 counterexample: `parse_size` can raise.  On the input `".B"` the
regex matches with numeral `"."`, and `float(".")` raises `ValueError`
(modelled as `none`), refuting "for every input string, parse_size
never raises". -/
theorem c2_counterexample_parse_size_raises :
    parse_size ".B".toList = none := by
  with_unfolding_all decide

/-- C2 (amended): `parse_size` never raises *provided* the regex-matched
numeral is accepted by `float()` (or there is no regex match at all);
it returns 0 on the empty string, on `"0B"`, on any string that does
not match the numeral-plus-unit shape, and on any matched string whose
unit suffix is not in the multiplier table. -/
theorem c2_amended_parse_size_total (s : List Char)
    (h : pyFloat (matchedNumeral s) ≠ none ∨
      matchedNumeral s = [] ∨ matchedUnit s = []) :
    (parse_size s).isSome = true ∧
    (s = [] → parse_size s = some 0) ∧
    (s = "0B".toList → parse_size s = some 0) ∧
    ((matchedNumeral s = [] ∨ matchedUnit s = []) → parse_size s = some 0) ∧
    (multipliers.lookup (lowerL (matchedUnit s)) = none →
      parse_size s = some 0) := by
  unfold parse_size
  by_cases h0 : s = [] ∨ s = "0B".toList
  · rw [if_pos h0]
    exact ⟨rfl, fun _ => rfl, fun _ => rfl, fun _ => rfl, fun _ => rfl⟩
  · rw [if_neg h0]
    by_cases h1 : matchedNumeral s = [] ∨ matchedUnit s = []
    · rw [if_pos h1]
      exact ⟨rfl, fun hs => absurd (Or.inl hs) h0,
        fun hs => absurd (Or.inr hs) h0, fun _ => rfl, fun _ => rfl⟩
    · rw [if_neg h1]
      have hf : pyFloat (matchedNumeral s) ≠ none := by tauto
      obtain ⟨v, hv⟩ := Option.ne_none_iff_exists'.mp hf
      rw [hv]
      refine ⟨rfl, fun hs => absurd (Or.inl hs) h0,
        fun hs => absurd (Or.inr hs) h0, fun h2 => absurd h2 h1, fun hlk => ?_⟩
      simp [hlk]

/-- C2 amended, witness: the unrecognized-suffix input `"5QZ"` does not
raise. -/
theorem c2_witness_no_raise :
    (parse_size "5QZ".toList).isSome = true :=
  (c2_amended_parse_size_total ("5QZ".toList)
    (Or.inl (by with_unfolding_all decide))).1

/-- C4: the assembler never aborts and its output is exactly the
filter-map of the per-line parser over the input lines, preserving
input order and silently skipping blank and unparseable lines (each
such line contributes `none`). -/
theorem c4_assembler_is_filterMap (lines : List (List Char)) :
    parse_docker_stats lines = lines.filterMap processLine :=
  pds_filterMap lines

/-- C7: a line whose sanitized form has fewer than 5 tab-separated
columns produces no sample, and inserting such a line anywhere leaves
the length of the assembled collection unchanged. -/
theorem c7_short_line_no_sample (line : List Char)
    (h : (splitOnChar '\t' (clean_line line)).length < 5) :
    processLine line = none ∧
    ∀ pre post : List (List Char),
      (parse_docker_stats (pre ++ line :: post)).length =
        (parse_docker_stats (pre ++ post)).length := by
  have hp : processLine line = none := by
    unfold processLine
    split
    · rfl
    · unfold parseParts
      rw [if_pos h]
  refine ⟨hp, fun pre post => ?_⟩
  rw [pds_filterMap, pds_filterMap]
  simp [List.filterMap_append, List.filterMap_cons, hp]

/-- C7 witness: the 4-column line `a<TAB>b<TAB>c<TAB>d` is rejected and
does not change the collection assembled around it. -/
theorem c7_witness_short_line :
    processLine "a\tb\tc\td".toList = none ∧
    (parse_docker_stats
        (["2024-01-01T00:00:00\tname=db\tcpu=3%\tmem=1MiB/2MiB\tnet=0B/0B\tblock=0B/0B".toList]
          ++ "a\tb\tc\td".toList :: [])).length =
      (parse_docker_stats
        (["2024-01-01T00:00:00\tname=db\tcpu=3%\tmem=1MiB/2MiB\tnet=0B/0B\tblock=0B/0B".toList]
          ++ [])).length := by
  have h := c7_short_line_no_sample "a\tb\tc\td".toList
    (by with_unfolding_all decide)
  exact ⟨h.1, h.2 _ []⟩

/-- C6: sanitizing a line in which no position starts a control-sequence
match (the sanitizer's own notion of a terminal escape/control
sequence) only trims surrounding whitespace; `clean_line` is a pure
function of the input string. -/
theorem c6_sanitizer_is_trim (line : List Char)
    (h : hasCtrl line = false) :
    clean_line line = pyStrip line :=
  clean_line_eq_strip h

/-- C6 witness: a control-sequence-free line is only trimmed. -/
theorem c6_witness_trim :
    clean_line "  name=web cpu=1%  ".toList = pyStrip "  name=web cpu=1%  ".toList :=
  c6_sanitizer_is_trim _ (by with_unfolding_all decide)

/-- C3 counterexample: the invariant "all numeric fields non-negative,
violating lines dropped" fails.  A line whose cpu field is `-5%`
produces a sample with `cpu = -5 < 0` and is *not* dropped. -/
theorem c3_counterexample_negative_cpu_kept :
    (parse_docker_stats [negCpuLine]).map MetricSample.cpu = [(-5 : ℚ)] := by
  with_unfolding_all decide

lemma parsePair_nonneg {tag field : List Char} {xy : ℚ × ℚ}
    (h : parsePair tag field = some xy) : 0 ≤ xy.1 ∧ 0 ≤ xy.2 := by
  unfold parsePair at h
  rcases Option.bind_eq_some.mp h with ⟨a, _, h⟩
  rcases Option.bind_eq_some.mp h with ⟨b, _, h⟩
  rcases Option.bind_eq_some.mp h with ⟨x, hx, h⟩
  rcases Option.bind_eq_some.mp h with ⟨y, hy, h⟩
  simp only [Option.some.injEq] at h
  subst h
  exact ⟨parse_size_nonneg hx, parse_size_nonneg hy⟩

lemma parseBlock_nonneg {parts : List (List Char)} {xy : ℚ × ℚ}
    (h : parseBlock parts = some xy) : 0 ≤ xy.1 ∧ 0 ≤ xy.2 := by
  unfold parseBlock at h
  split at h
  · rcases Option.bind_eq_some.mp h with ⟨p5, _, h⟩
    exact parsePair_nonneg h
  · simp only [Option.some.injEq] at h
    subst h
    exact ⟨le_refl 0, le_refl 0⟩

lemma parseParts_size_fields_nonneg {parts : List (List Char)}
    {e : MetricSample} (h : parseParts parts = some e) :
    0 ≤ e.mem_used ∧ 0 ≤ e.mem_total ∧ 0 ≤ e.net_in ∧ 0 ≤ e.net_out ∧
      0 ≤ e.block_in ∧ 0 ≤ e.block_out := by
  unfold parseParts at h
  split at h
  · exact absurd h (by simp)
  · rcases Option.bind_eq_some.mp h with ⟨p0, _, h⟩
    rcases Option.bind_eq_some.mp h with ⟨p1, _, h⟩
    rcases Option.bind_eq_some.mp h with ⟨p2, _, h⟩
    rcases Option.bind_eq_some.mp h with ⟨p3, _, h⟩
    rcases Option.bind_eq_some.mp h with ⟨p4, _, h⟩
    rcases Option.bind_eq_some.mp h with ⟨ts, _, h⟩
    rcases Option.bind_eq_some.mp h with ⟨cpu, _, h⟩
    rcases Option.bind_eq_some.mp h with ⟨mem, hmem, h⟩
    rcases Option.bind_eq_some.mp h with ⟨net, hnet, h⟩
    rcases Option.bind_eq_some.mp h with ⟨blk, hblk, h⟩
    simp only [Option.some.injEq] at h
    subst h
    obtain ⟨hm1, hm2⟩ := parsePair_nonneg hmem
    obtain ⟨hn1, hn2⟩ := parsePair_nonneg hnet
    obtain ⟨hb1, hb2⟩ := parseBlock_nonneg hblk
    exact ⟨hm1, hm2, hn1, hn2, hb1, hb2⟩

/-- C3 (amended): every sample in the assembled collection has
non-negative `mem_used`, `mem_total`, `net_in`, `net_out`, `block_in`
and `block_out` (every `parse_size` result is non-negative, and the
defaults are 0); `cpu` however may be negative — or non-finite in the
Python original — because `float()` accepts signed values, and such
lines are not dropped. -/
theorem c3_amended_size_fields_nonneg (lines : List (List Char))
    (e : MetricSample) (he : e ∈ parse_docker_stats lines) :
    0 ≤ e.mem_used ∧ 0 ≤ e.mem_total ∧ 0 ≤ e.net_in ∧ 0 ≤ e.net_out ∧
      0 ≤ e.block_in ∧ 0 ≤ e.block_out := by
  rw [pds_filterMap] at he
  rcases List.mem_filterMap.mp he with ⟨line, _, hline⟩
  unfold processLine at hline
  split at hline
  · exact absurd hline (by simp)
  · exact parseParts_size_fields_nonneg hline

/-- C3 amended, witness: the size fields of the sample parsed from
`negCpuLine` are non-negative. -/
theorem c3_witness_size_fields_nonneg :
    0 ≤ negCpuSample.mem_used ∧ 0 ≤ negCpuSample.mem_total ∧
      0 ≤ negCpuSample.net_in ∧ 0 ≤ negCpuSample.net_out ∧
      0 ≤ negCpuSample.block_in ∧ 0 ≤ negCpuSample.block_out :=
  c3_amended_size_fields_nonneg [negCpuLine] negCpuSample
    (by with_unfolding_all decide)

/-- C8: a line with exactly 5 tab-separated columns that parses
successfully yields a sample whose optional block-I/O field defaulted
to 0 in both components. -/
theorem c8_five_columns_block_defaults (line : List Char)
    (e : MetricSample)
    (hlen : (splitOnChar '\t' (clean_line line)).length = 5)
    (h : processLine line = some e) :
    e.block_in = 0 ∧ e.block_out = 0 := by
  unfold processLine at h
  split at h
  · exact absurd h (by simp)
  · unfold parseParts at h
    rw [if_neg (by omega)] at h
    rcases Option.bind_eq_some.mp h with ⟨p0, _, h⟩
    rcases Option.bind_eq_some.mp h with ⟨p1, _, h⟩
    rcases Option.bind_eq_some.mp h with ⟨p2, _, h⟩
    rcases Option.bind_eq_some.mp h with ⟨p3, _, h⟩
    rcases Option.bind_eq_some.mp h with ⟨p4, _, h⟩
    rcases Option.bind_eq_some.mp h with ⟨ts, _, h⟩
    rcases Option.bind_eq_some.mp h with ⟨cpu, _, h⟩
    rcases Option.bind_eq_some.mp h with ⟨mem, _, h⟩
    rcases Option.bind_eq_some.mp h with ⟨net, _, h⟩
    rcases Option.bind_eq_some.mp h with ⟨blk, hblk, h⟩
    unfold parseBlock at hblk
    rw [if_neg (by omega)] at hblk
    simp only [Option.some.injEq] at hblk h
    subst hblk
    subst h
    exact ⟨rfl, rfl⟩

/-- C8 witness: the concrete 5-column line parses with both block-I/O
components equal to 0. -/
theorem c8_witness_block_defaults :
    fiveColSample.block_in = 0 ∧ fiveColSample.block_out = 0 :=
  c8_five_columns_block_defaults fiveColLine fiveColSample
    (by with_unfolding_all decide) (by with_unfolding_all decide)

/-- C10: the field parser accepts rows with extra columns beyond the
sixth; the sample is built from columns 0 through 5 only, so appending
any further columns to a 6-column row leaves the result unchanged. -/
theorem c10_extra_columns_ignored (parts extra : List (List Char))
    (h : parts.length = 6) :
    parseParts (parts ++ extra) = parseParts parts := by
  have e0 : (parts ++ extra).get? 0 = parts.get? 0 := List.get?_append (by omega)
  have e1 : (parts ++ extra).get? 1 = parts.get? 1 := List.get?_append (by omega)
  have e2 : (parts ++ extra).get? 2 = parts.get? 2 := List.get?_append (by omega)
  have e3 : (parts ++ extra).get? 3 = parts.get? 3 := List.get?_append (by omega)
  have e4 : (parts ++ extra).get? 4 = parts.get? 4 := List.get?_append (by omega)
  have e5 : (parts ++ extra).get? 5 = parts.get? 5 := List.get?_append (by omega)
  have hlen : (parts ++ extra).length = 6 + extra.length := by
    simp [List.length_append, h]
  have hne1 : ¬((parts ++ extra).length < 5) := by omega
  have hne2 : ¬(parts.length < 5) := by omega
  have hgt : (parts ++ extra).length > 5 := by omega
  have hgt2 : parts.length > 5 := by omega
  unfold parseParts parseBlock
  rw [if_neg hne1, if_neg hne2]
  simp only [e0, e1, e2, e3, e4, e5, hgt, hgt2, if_true]

/-- C10 witness: appending a junk seventh column to a concrete
6-column row does not change the parse result. -/
theorem c10_witness_extra_column :
    parseParts (sixCols ++ ["junk".toList]) = parseParts sixCols :=
  c10_extra_columns_ignored sixCols ["junk".toList] (by with_unfolding_all decide)

lemma matched_groups_of_append {numeral suffix : List Char}
    (hn : ∀ c ∈ numeral, isNumC c = true)
    (hs0 : suffix ≠ [])
    (hs : ∀ c ∈ suffix, isLetterC c = true) :
    matchedNumeral (numeral ++ suffix) = numeral ∧
      matchedUnit (numeral ++ suffix) = suffix := by
  obtain ⟨c0, srest, rfl⟩ : ∃ c r, suffix = c :: r := by
    cases suffix with
    | nil => exact absurd rfl hs0
    | cons c r => exact ⟨c, r, rfl⟩
  have hc0 : isLetterC c0 = true := hs c0 (List.mem_cons_self c0 srest)
  have hc0n : isNumC c0 = false := isLetterC_isNumC_false hc0
  have hws : ∀ c ∈ numeral ++ c0 :: srest, isWsC c = false := by
    intro c hc
    rcases List.mem_append.mp hc with hm | hm
    · exact isNumC_isWsC_false (hn c hm)
    · exact isLetterC_isWsC_false (hs c hm)
  have hst : pyStrip (numeral ++ c0 :: srest) = numeral ++ c0 :: srest :=
    pyStrip_eq_self hws
  constructor
  · unfold matchedNumeral
    rw [hst, takeWhile_append_of_forall hn,
      takeWhile_eq_nil_of_head (List.head?_cons) hc0n, List.append_nil]
  · unfold matchedUnit
    rw [hst, dropWhile_append_of_forall (Or.inr ⟨c0, List.head?_cons, hc0n⟩) hn,
      List.dropWhile_cons_of_neg (by simp [hc0n]),
      takeWhile_eq_self_of_forall hs]

lemma lookup_eq_specMultiplier {u : List Char} (hk : u ∈ specSuffixes) :
    (multipliers.lookup u).getD 0 = specMultiplier u := by
  simp only [specSuffixes, List.mem_cons, List.not_mem_nil, or_false] at hk
  rcases hk with rfl | rfl | rfl | rfl | rfl | rfl | rfl | rfl | rfl
  · show ((1 : ℚ) / (1024 * 1024)) = 1 / 1048576
    norm_num
  · rfl
  · rfl
  · rfl
  · show ((1024 : ℚ) * 1024) = 1048576
    norm_num
  · rfl
  · rfl
  · rfl
  · show ((1024 : ℚ) * 1024) = 1048576
    norm_num

/-- C1: on a token made of a decimal numeral (any nonempty `[\d.]` run
accepted by `float()`, with value `v`) immediately followed by a
recognized unit suffix (case-insensitively one of the nine listed
suffixes), `parse_size` returns exactly `v` times the multiplier the
specification's table assigns to the lowercased suffix — in particular
the decimal suffixes `kb`/`gb`/`tb` get the binary multipliers, and the
result is linear in `v`. -/
theorem c1_parse_size_matches_spec_table (numeral suffix : List Char) (v : ℚ)
    (hn0 : numeral ≠ [])
    (hn : ∀ c ∈ numeral, isNumC c = true)
    (hv : pyFloat numeral = some v)
    (hs0 : suffix ≠ [])
    (hs : ∀ c ∈ suffix, isLetterC c = true)
    (hk : lowerL suffix ∈ specSuffixes) :
    parse_size (numeral ++ suffix) = some (v * specMultiplier (lowerL suffix)) := by
  by_cases h0 : numeral ++ suffix = "0B".toList
  · have hdec : numeral = ['0'] ∧ suffix = ['B'] := by
      cases numeral with
      | nil => exact absurd rfl hn0
      | cons a t =>
        have h0' : a :: (t ++ suffix) = ['0', 'B'] := by simpa using h0
        have ha : a = '0' := (List.cons.injEq _ _ _ _).mp h0' |>.1
        have ht : t ++ suffix = ['B'] := (List.cons.injEq _ _ _ _).mp h0' |>.2
        cases t with
        | nil =>
          simp only [List.nil_append] at ht
          exact ⟨by rw [ha], ht⟩
        | cons b t2 =>
          simp only [List.cons_append, List.cons.injEq, List.append_eq_nil] at ht
          exact absurd ht.2.2 hs0
    obtain ⟨rfl, rfl⟩ := hdec
    have hv0 : v = 0 := by
      have h00 : pyFloat ['0'] = some 0 := by with_unfolding_all decide
      rw [h00] at hv
      exact (Option.some.injEq _ _).mp hv |>.symm
    subst hv0
    rw [zero_mul]
    unfold parse_size
    rw [if_pos (Or.inr (by decide))]
  · have h00 : ¬(numeral ++ suffix = [] ∨ numeral ++ suffix = "0B".toList) := by
      rintro (he | hb)
      · exact hn0 (List.append_eq_nil.mp he).1
      · exact h0 hb
    obtain ⟨hnum_eq, hunit_eq⟩ := matched_groups_of_append hn hs0 hs
    unfold parse_size
    rw [if_neg h00, hnum_eq, hunit_eq, if_neg (by push_neg; exact ⟨hn0, hs0⟩),
      hv, Option.map_some', lookup_eq_specMultiplier hk]

/-- C1 witness: `parse_size "1.5GiB"` is `1.5` times the specification
multiplier of `gib`. -/
theorem c1_witness_gib :
    parse_size ("1.5".toList ++ "GiB".toList) =
      some ((3/2) * specMultiplier (lowerL "GiB".toList)) :=
  c1_parse_size_matches_spec_table "1.5".toList "GiB".toList (3/2)
    (by with_unfolding_all decide) (by with_unfolding_all decide)
    (by with_unfolding_all decide) (by with_unfolding_all decide)
    (by with_unfolding_all decide) (by with_unfolding_all decide)

end DockerStats
